import Mathlib

/-!
Verification of the data pipeline of the satellite-catalog timeline view
(js/leo_timeline.js): the seeded pseudo-random generator mulberry32, the
per-row parser with its LEO classifier and layout derivation, the
active-set filter with its end-of-year timestamp, and the stride
subsampler.

Modelling conventions. JS numbers that the code only ever uses as exact
values (timestamps, thresholds, the generator arithmetic) are embedded as
rationals and integers: every bitwise operation of mulberry32 coerces its
operands to 32 bits, so the generator state is carried as a natural number
reduced mod 2^32, exactly the residue ToUint32 would read off the JS value.
A raw CSV field that the code feeds through numeric coercion is modelled as
the coercion result: some q for a finite number, none for NaN (the result
of a failed coercion) or an infinity, which is what Number.isFinite
distinguishes. Dates are their UTC millisecond timestamps, which is the
ordering JS Date comparison uses; a date field is none when the string was
empty or unparseable, matching the null the code stores. Math.PI is the
exact rational value of the IEEE double stored in that constant.
-/

namespace SatCat

/-- One call of the generator returned by mulberry32 (js/leo_timeline.js,
function mulberry32): the new 32-bit state together with the 32-bit value
whose division by 2^32 the call returns. All arithmetic is the mod-2^32
residue arithmetic the JS bitwise coercions perform. -/
def mb32next (t : ℕ) : ℕ × ℕ :=
  let t1 := (t + 0x6D2B79F5) % 4294967296
  let x0 := ((t1 ^^^ (t1 >>> 15)) * (t1 ||| 1)) % 4294967296
  let x1 := x0 ^^^ ((x0 + ((x0 ^^^ (x0 >>> 7)) * (x0 ||| 61)) % 4294967296) % 4294967296)
  (t1, x1 ^^^ (x1 >>> 14))

/-- The rational value a mulberry32 call returns: the 32-bit output over 2^32. -/
def mb32val (t : ℕ) : ℚ := ((mb32next t).2 : ℚ) / 4294967296

/-- JS ToUint32 on a finite number: truncate toward zero, then reduce into
[0, 2^32). This is the `seed >>> 0` step of mulberry32. -/
def toUint32 (q : ℚ) : ℕ := ((if 0 ≤ q then ⌊q⌋ else ⌈q⌉) % (4294967296 : ℤ)).toNat

/-- The exact rational value of the IEEE-754 double Math.PI. -/
def mathPI : ℚ := 884279719003555 / 281474976710656

/-- The reference radius of the central disc (const earthRadius). -/
def earthRadius : ℚ := 250

/-- The derived layout of a record: baseAngle, baseRadius and drift as the
row parser computes them from the seeded generator (js/leo_timeline.js,
lines 211-214). The four generator calls happen in source order: baseAngle,
baseRadius, then the drift magnitude and the drift sign. -/
structure Layout where
  baseAngle : ℚ
  baseRadius : ℚ
  drift : ℚ
deriving DecidableEq, Repr

/-- The layout derivation: seed mulberry32 with the catalog id and read off
the three visual parameters. -/
def layoutOf (norad : ℚ) : Layout :=
  let t0 := toUint32 norad
  let s1 := mb32next t0
  let s2 := mb32next s1.1
  let s3 := mb32next s2.1
  let s4 := mb32next s3.1
  let r1 : ℚ := (s1.2 : ℚ) / 4294967296
  let r2 : ℚ := (s2.2 : ℚ) / 4294967296
  let r3 : ℚ := (s3.2 : ℚ) / 4294967296
  let r4 : ℚ := (s4.2 : ℚ) / 4294967296
  { baseAngle := mathPI + r1 * mathPI
    baseRadius := earthRadius + 35 + r2 * 190
    drift := (8 / 100 + r3 * (20 / 100)) * (if r4 < 1 / 2 then -1 else 1) }

/-- A raw CSV row as the row callback of d3.csv sees it, with each field
already taken through the external primitive the code applies to it:
the date fields through d3.utcParse (none = missing or unparseable), the
numeric fields through JS numeric coercion (none = non-finite result), and
the two tag fields kept as strings. -/
structure RawRow where
  LAUNCH_DATE : Option ℤ
  DECAY_DATE : Option ℤ
  APOGEE : Option ℚ
  PERIOD : Option ℚ
  NORAD_CAT_ID : Option ℚ
  OBJECT_TYPE : String
  ORBIT_CENTER : String
deriving DecidableEq, Repr

/-- toNum from the source: keep a finite number, collapse any non-finite
coercion result to the NaN sentinel. -/
def toNum (v : Option ℚ) : Option ℚ := if v.isSome then v else none

/-- The pattern Number.isFinite(x) && x <= bound used by the classifier:
false whenever the value is the non-finite sentinel. -/
def finLe (v : Option ℚ) (bound : ℚ) : Bool :=
  match v with
  | some a => decide (a ≤ bound)
  | none => false

/-- The LEO classifier (js/leo_timeline.js, lines 204-207): Earth-centered
orbit, and apogee at most 2000 km or period at most 127 minutes, each
threshold checked with a non-finite-safe comparison. -/
def isLeoOf (orbitCenter : String) (apogee period : Option ℚ) : Bool :=
  let isEarth := orbitCenter == "EA"
  let leoByApogee := finLe apogee 2000
  let leoByPeriod := finLe period 127
  isEarth && (leoByApogee || leoByPeriod)

/-- A parsed working-set record, with the fields the rest of the pipeline
reads: trimmed object type, dates, the catalog id and the derived layout. -/
structure CatalogRecord where
  objectType : String
  launchDate : ℤ
  decayDate : Option ℤ
  norad : ℚ
  baseAngle : ℚ
  baseRadius : ℚ
  drift : ℚ
deriving DecidableEq, Repr, Inhabited

/-- The d3.csv row callback (js/leo_timeline.js, lines 196-226): parse the
dates, coerce the numeric fields, fall back to index + 1 for a falsy catalog
id, classify, and either reject the row (none) or return the record with its
derived layout. -/
def parseRow (d : RawRow) (i : ℕ) : Option CatalogRecord :=
  let apogee := toNum d.APOGEE
  let period := toNum d.PERIOD
  let norad : ℚ :=
    match d.NORAD_CAT_ID with
    | some q => if q = 0 then (i : ℚ) + 1 else q
    | none => (i : ℚ) + 1
  let objectType := d.OBJECT_TYPE.trim
  let isLeo := isLeoOf d.ORBIT_CENTER apogee period
  match d.LAUNCH_DATE with
  | none => none
  | some ld =>
      if isLeo then
        let ly := layoutOf norad
        some { objectType := objectType
               launchDate := ld
               decayDate := d.DECAY_DATE
               norad := norad
               baseAngle := ly.baseAngle
               baseRadius := ly.baseRadius
               drift := ly.drift }
      else none

/-- The launch-date comparator the load step sorts by
(d3.ascending on launchDate). -/
def dateLe (a b : CatalogRecord) : Prop := a.launchDate ≤ b.launchDate

instance : DecidableRel dateLe :=
  fun a b => inferInstanceAs (Decidable (a.launchDate ≤ b.launchDate))

instance : IsTotal CatalogRecord dateLe := ⟨fun a b => le_total a.launchDate b.launchDate⟩

instance : IsTrans CatalogRecord dateLe := ⟨fun _ _ _ h1 h2 => le_trans h1 h2⟩

/-- The working set (const leoData, line 228): parse every row with its
index, drop the rejected ones, and sort ascending by launch date. The sort
is modelled by the stable insertion sort, which realises the same
specification as the JS stable comparator sort. -/
def leoData (rows : List RawRow) : List CatalogRecord :=
  List.insertionSort dateLe ((rows.enum.map fun x => parseRow x.2 x.1).filterMap id)

/-- ECMA-262 DaysInYear, the leap-year rule Date.UTC computes with. -/
def daysInYear (y : ℤ) : ℤ :=
  if y % 4 ≠ 0 then 365
  else if y % 100 ≠ 0 then 366
  else if y % 400 ≠ 0 then 365
  else 366

/-- ECMA-262 DayFromYear: days from the epoch to Jan 1 of year y. -/
def dayFromYear (y : ℤ) : ℤ :=
  365 * (y - 1970) + (y - 1969) / 4 - (y - 1901) / 100 + (y - 1601) / 400

/-- The end-of-year instant of activeAtYear (line 278): the millisecond
timestamp of Date.UTC(year, 11, 31, 23, 59, 59), that is Dec 31 of the year
at 23:59:59 UTC. The 334 days cover January through November of a common
year, with one more in a leap year. -/
def endOfYear (year : ℤ) : ℤ :=
  ((dayFromYear year + 334 + (if daysInYear year = 366 then 1 else 0) + 30) * 86400
    + (23 * 3600 + 59 * 60 + 59)) * 1000

/-- The active-set filter (js/leo_timeline.js, lines 277-284): keep the
records whose type is selected, launched no later than the end of the year,
and not yet decayed at that instant (a missing decay date means still in
orbit). -/
def activeAtYear (leo : List CatalogRecord) (selectedTypes : List String) (year : ℤ) :
    List CatalogRecord :=
  leo.filter fun d =>
    selectedTypes.contains d.objectType &&
    decide (d.launchDate ≤ endOfYear year) &&
    (match d.decayDate with
     | none => true
     | some dd => decide (endOfYear year < dd))

/-- The stride subsampler (js/leo_timeline.js, lines 286-290): an input not
over budget is returned unchanged, otherwise every step-th element by
position is kept, with step the ceiling of length over budget. The
enumerate-filter-project composition is the JS filter callback reading the
element index. -/
def subsample {α : Type} (arr : List α) (maxCount : ℕ) : List α :=
  if arr.length ≤ maxCount then arr
  else (arr.enum.filter fun x =>
    x.1 % ((arr.length + maxCount - 1) / maxCount) == 0).map Prod.snd

/-! ## Helper lemmas -/

theorem enum_zero {α : Type} (l : List α) : l.enum = List.enumFrom 0 l := rfl

/-- The index-filter of the subsampler only ever picks elements of the input,
in their original order. -/
theorem enumFrom_filter_map_sublist {α : Type} (p : ℕ → Bool) (l : List α) :
    ∀ k : ℕ, (((List.enumFrom k l).filter fun x => p x.1).map Prod.snd).Sublist l := by
  induction l with
  | nil => intro k; simp
  | cons a as ih =>
      intro k
      rw [List.enumFrom_cons]
      by_cases hp : p k
      · have hf : List.filter (fun x => p x.1) ((k, a) :: List.enumFrom (k + 1) as)
            = (k, a) :: List.filter (fun x => p x.1) (List.enumFrom (k + 1) as) :=
          List.filter_cons_of_pos hp
        rw [hf, List.map_cons]
        exact (ih (k + 1)).cons₂ a
      · have hf : List.filter (fun x => p x.1) ((k, a) :: List.enumFrom (k + 1) as)
            = List.filter (fun x => p x.1) (List.enumFrom (k + 1) as) :=
          List.filter_cons_of_neg hp
        rw [hf]
        exact (ih (k + 1)).cons a

/-- How many indices the subsampler keeps: as many as the index filter keeps
on the bare index range. -/
theorem enumFrom_filter_length {α : Type} (p : ℕ → Bool) (l : List α) :
    ∀ k : ℕ, ((List.enumFrom k l).filter fun x => p x.1).length
      = ((List.range' k l.length).filter p).length := by
  induction l with
  | nil => intro k; rfl
  | cons a as ih =>
      intro k
      rw [List.enumFrom_cons, List.length_cons, List.range'_succ]
      by_cases hp : p k
      · have hf : List.filter (fun x => p x.1) ((k, a) :: List.enumFrom (k + 1) as)
            = (k, a) :: List.filter (fun x => p x.1) (List.enumFrom (k + 1) as) :=
          List.filter_cons_of_pos hp
        rw [hf, List.filter_cons_of_pos hp, List.length_cons, List.length_cons, ih (k + 1)]
      · have hf : List.filter (fun x => p x.1) ((k, a) :: List.enumFrom (k + 1) as)
            = List.filter (fun x => p x.1) (List.enumFrom (k + 1) as) :=
          List.filter_cons_of_neg hp
        rw [hf, List.filter_cons_of_neg hp, ih (k + 1)]

/-- The index-filtered projection reads exactly the elements at the kept
positions, via the positional lookup. -/
theorem enumFrom_filter_map_eq {α : Type} (p : ℕ → Bool) (l : List α) :
    ∀ k : ℕ, ((List.enumFrom k l).filter fun x => p x.1).map Prod.snd
      = ((List.range' k l.length).filter p).filterMap fun j => l[j - k]? := by
  induction l with
  | nil => intro k; rfl
  | cons a as ih =>
      intro k
      rw [List.enumFrom_cons, List.length_cons, List.range'_succ]
      have hshift :
          (((List.range' (k + 1) as.length).filter p).filterMap fun j => (a :: as)[j - k]?)
            = ((List.range' (k + 1) as.length).filter p).filterMap fun j => as[j - (k + 1)]? := by
        apply List.filterMap_congr
        intro j hj
        have hjm : j ∈ List.range' (k + 1) as.length := (List.mem_filter.mp hj).1
        have hj1 : k + 1 ≤ j := by
          obtain ⟨i, -, rfl⟩ := List.mem_range'.mp hjm
          omega
        have hsub : j - k = (j - (k + 1)) + 1 := by omega
        rw [hsub, List.getElem?_cons_succ]
      by_cases hp : p k
      · have hf : List.filter (fun x => p x.1) ((k, a) :: List.enumFrom (k + 1) as)
            = (k, a) :: List.filter (fun x => p x.1) (List.enumFrom (k + 1) as) :=
          List.filter_cons_of_pos hp
        rw [hf, List.filter_cons_of_pos hp, List.map_cons, List.filterMap_cons]
        have hk0 : (a :: as)[k - k]? = some a := by simp
        rw [hk0, ih (k + 1), hshift]
      · have hf : List.filter (fun x => p x.1) ((k, a) :: List.enumFrom (k + 1) as)
            = List.filter (fun x => p x.1) (List.enumFrom (k + 1) as) :=
          List.filter_cons_of_neg hp
        rw [hf, List.filter_cons_of_neg hp, ih (k + 1), hshift]

/-- Counting the kept indices: the multiples of s below n are ceil(n / s)
many, written as (n + s - 1) / s. -/
theorem length_filter_range_mod (s : ℕ) (hs : 0 < s) :
    ∀ n : ℕ, ((List.range n).filter fun i => i % s == 0).length = (n + s - 1) / s := by
  intro n
  induction n with
  | zero =>
      rw [List.range_zero, List.filter_nil, List.length_nil]
      exact (Nat.div_eq_of_lt (by omega)).symm
  | succ n ih =>
      rw [List.range_succ, List.filter_append, List.length_append, ih]
      have hsd : n + 1 + s - 1 = (n + s - 1) + 1 := by omega
      have hns : (n + s - 1) + 1 = n + s := by omega
      rw [hsd, Nat.succ_div, hns]
      simp only [Nat.dvd_add_self_right]
      by_cases hd : s ∣ n
      · have hf : List.filter (fun i => i % s == 0) [n] = [n] := by
          simp [Nat.dvd_iff_mod_eq_zero.mp hd]
        rw [hf, if_pos hd, List.length_cons, List.length_nil]
      · have hf : List.filter (fun i => i % s == 0) [n] = [] := by
          have hne : ¬ n % s = 0 := fun h => hd (Nat.dvd_iff_mod_eq_zero.mpr h)
          simp [hne]
        rw [hf, if_neg hd, List.length_nil]

/-- Ceiling division bound: n is at most its ceiling quotient times M. -/
theorem le_ceil_div_mul (n M : ℕ) (hM : 0 < M) (hn : 0 < n) :
    n ≤ (n + M - 1) / M * M := by
  obtain ⟨m, rfl⟩ : ∃ m, n = m + 1 := ⟨n - 1, by omega⟩
  have hrw : m + 1 + M - 1 = m + M := by omega
  rw [hrw]
  have h1 : M * ((m + M) / M) + (m + M) % M = m + M := Nat.div_add_mod _ _
  have h2 : (m + M) % M < M := Nat.mod_lt _ hM
  have h3 : (m + M) / M * M = M * ((m + M) / M) := Nat.mul_comm _ _
  rw [h3]
  omega

/-- The subsampler never returns more than the render budget. -/
theorem subsample_length_le {α : Type} (arr : List α) (M : ℕ) (hM : 0 < M) :
    (subsample arr M).length ≤ M := by
  rw [subsample]
  split
  · next h => exact h
  · next h =>
      have hn : M < arr.length := by omega
      set n := arr.length with hn_def
      set s := (n + M - 1) / M with hs_def
      have hs : 0 < s := by
        rw [hs_def]
        exact (Nat.one_le_div_iff hM).mpr (by omega)
      rw [List.length_map, enum_zero, enumFrom_filter_length (fun i => i % s == 0) arr 0,
        ← List.range_eq_range', length_filter_range_mod s hs n]
      have hkey : n ≤ s * M := le_ceil_div_mul n M hM (by omega)
      calc (n + s - 1) / s ≤ (s * M + s - 1) / s := by
            apply Nat.div_le_div_right
            omega
        _ = M := by
            rw [Nat.add_sub_assoc hs, Nat.add_comm (s * M) (s - 1),
              Nat.add_mul_div_left _ _ hs, Nat.div_eq_of_lt (by omega)]
            omega

/-- The first element (index 0) is always kept by the stride filter. -/
theorem subsample_head {α : Type} (arr : List α) (M : ℕ) :
    (subsample arr M).head? = arr.head? := by
  rw [subsample]
  split
  · rfl
  · next h =>
      rcases arr with _ | ⟨a, as⟩
      · simp at h
      · rw [enum_zero, List.enumFrom_cons]
        have hf : List.filter
              (fun x => x.1 % (((a :: as).length + M - 1) / M) == 0)
              ((0, a) :: List.enumFrom (0 + 1) as)
            = (0, a) :: List.filter
              (fun x => x.1 % (((a :: as).length + M - 1) / M) == 0)
              (List.enumFrom (0 + 1) as) :=
          List.filter_cons_of_pos (by simp)
        rw [hf, List.map_cons]
        rfl

/-- The subsample is a sublist of its input, whatever the budget. -/
theorem subsample_sublist_aux {α : Type} (arr : List α) (M : ℕ) :
    (subsample arr M).Sublist arr := by
  rw [subsample]
  split
  · exact List.Sublist.refl arr
  · rw [enum_zero]
    exact enumFrom_filter_map_sublist
      (fun i => i % ((arr.length + M - 1) / M) == 0) arr 0

/-- Every accepted record carries the fallback-or-genuine catalog id and the
layout derived from that id. -/
theorem parseRow_fields {d : RawRow} {i : ℕ} {r : CatalogRecord}
    (h : parseRow d i = some r) :
    r.norad = (match d.NORAD_CAT_ID with
      | some q => if q = 0 then (i : ℚ) + 1 else q
      | none => (i : ℚ) + 1) ∧
    r.baseAngle = (layoutOf r.norad).baseAngle ∧
    r.baseRadius = (layoutOf r.norad).baseRadius ∧
    r.drift = (layoutOf r.norad).drift := by
  unfold parseRow at h
  rcases hl : d.LAUNCH_DATE with _ | ld
  · rw [hl] at h
    exact absurd h (by simp)
  · rw [hl] at h
    simp only [] at h
    split at h
    · injection h with h
      subst h
      exact ⟨rfl, rfl, rfl, rfl⟩
    · exact absurd h (by simp)

/-- Membership characterization of the active-set filter. -/
theorem mem_activeAtYear {leo : List CatalogRecord} {sel : List String} {year : ℤ}
    {r : CatalogRecord} :
    r ∈ activeAtYear leo sel year ↔
      r ∈ leo ∧ r.objectType ∈ sel ∧ r.launchDate ≤ endOfYear year ∧
        (r.decayDate = none ∨ ∃ dd, r.decayDate = some dd ∧ endOfYear year < dd) := by
  rw [activeAtYear, List.mem_filter]
  rcases hd : r.decayDate with _ | dd <;>
    simp [hd, List.contains, List.elem_iff, and_assoc]

/-- The end-of-year timestamp grows from one year to the next. -/
theorem endOfYear_lt_succ (y : ℤ) : endOfYear y < endOfYear (y + 1) := by
  unfold endOfYear dayFromYear daysInYear
  split_ifs <;> omega

/-- The end-of-year timestamp is monotone in the year. -/
theorem endOfYear_mono : Monotone endOfYear :=
  (strictMono_int_of_lt_succ endOfYear_lt_succ).monotone

/-- Xor of two 32-bit values stays within 32 bits. -/
theorem xor_lt_u32 {x y : ℕ} (hx : x < 4294967296) (hy : y < 4294967296) :
    x ^^^ y < 4294967296 := by
  have h : (4294967296 : ℕ) = 2 ^ 32 := by norm_num
  rw [h] at hx hy ⊢
  exact Nat.xor_lt_two_pow hx hy

/-- Logical right shift never grows a natural number. -/
theorem shiftRight_le_self (x k : ℕ) : x >>> k ≤ x := by
  rw [Nat.shiftRight_eq_div_pow]
  exact Nat.div_le_self _ _

/-- The 32-bit output of one generator call stays within 32 bits. -/
theorem mb32out_lt (t : ℕ) : (mb32next t).2 < 4294967296 := by
  have key : ∀ x0 : ℕ, x0 < 4294967296 → ∀ y : ℕ,
      (x0 ^^^ y % 4294967296) ^^^ ((x0 ^^^ y % 4294967296) >>> 14) < 4294967296 := by
    intro x0 hx0 y
    have hx1 : x0 ^^^ y % 4294967296 < 4294967296 :=
      xor_lt_u32 hx0 (Nat.mod_lt _ (by norm_num))
    exact xor_lt_u32 hx1 (lt_of_le_of_lt (shiftRight_le_self _ _) hx1)
  simp only [mb32next]
  exact key _ (Nat.mod_lt _ (by norm_num)) _

/-- A 32-bit output divided by 2^32 lies in the unit interval. -/
theorem unit_range {o : ℕ} (h : o < 4294967296) :
    0 ≤ (o : ℚ) / 4294967296 ∧ (o : ℚ) / 4294967296 < 1 := by
  constructor
  · positivity
  · rw [div_lt_one (by norm_num)]
    exact_mod_cast h

/-- Range facts about the layout arithmetic, for unit-interval draws. -/
theorem layout_ranges_core (r1 r2 r3 r4 : ℚ)
    (h1 : 0 ≤ r1 ∧ r1 < 1) (h2 : 0 ≤ r2 ∧ r2 < 1) (h3 : 0 ≤ r3 ∧ r3 < 1) :
    (mathPI ≤ mathPI + r1 * mathPI ∧ mathPI + r1 * mathPI < 2 * mathPI) ∧
    (earthRadius + 35 ≤ earthRadius + 35 + r2 * 190 ∧
      earthRadius + 35 + r2 * 190 ≤ earthRadius + 225) ∧
    ∃ m sg : ℚ, (8 / 100 + r3 * (20 / 100)) * (if r4 < 1 / 2 then -1 else 1) = m * sg ∧
      8 / 100 ≤ m ∧ m < 28 / 100 ∧ (sg = 1 ∨ sg = -1) := by
  obtain ⟨h1l, h1u⟩ := h1
  obtain ⟨h2l, h2u⟩ := h2
  obtain ⟨h3l, h3u⟩ := h3
  have hpi : 0 < mathPI := by norm_num [mathPI]
  refine ⟨⟨by nlinarith, by nlinarith⟩, ⟨by nlinarith, by nlinarith⟩,
    8 / 100 + r3 * (20 / 100), (if r4 < 1 / 2 then -1 else 1), rfl,
    by nlinarith, by nlinarith, by split <;> simp⟩

/-! ## Claim theorems -/

/-- C1: for every input sequence and every positive render budget M, an input
of length at most M is returned unchanged; an oversized input is reduced to
exactly the elements at the positions divisible by step = ceil(length / M),
in order; and in every case the result has at most M elements. -/
theorem subsample_stride_spec {α : Type} (arr : List α) (M : ℕ) (hM : 0 < M) :
    (arr.length ≤ M → subsample arr M = arr) ∧
    (M < arr.length →
      subsample arr M
        = ((List.range arr.length).filter
            fun i => i % ((arr.length + M - 1) / M) == 0).filterMap fun i => arr[i]?) ∧
    (subsample arr M).length ≤ M := by
  refine ⟨fun h => by rw [subsample, if_pos h], fun h => ?_, subsample_length_le arr M hM⟩
  rw [subsample, if_neg (by omega), enum_zero,
    enumFrom_filter_map_eq (fun i => i % ((arr.length + M - 1) / M) == 0) arr 0,
    List.range_eq_range']
  simp only [Nat.sub_zero]

/-- Witness for C1: a two-element list under budget 3 is unchanged, and a
four-element list cut to budget 2 is within budget. -/
theorem subsample_stride_spec_witness :
    subsample [5, 6] 3 = [5, 6] ∧ (subsample [7, 8, 9, 10] 2).length ≤ 2 :=
  ⟨(subsample_stride_spec [5, 6] 3 (by decide)).1 (by decide),
   (subsample_stride_spec [7, 8, 9, 10] 2 (by decide)).2.2⟩

/-- C9: the subsample is a subsequence of its input, so every output element
occurs in the input and relative order is preserved, and a nonempty input
always keeps its first element (position 0 survives the stride filter). -/
theorem subsample_subsequence {α : Type} (arr : List α) (M : ℕ) (_hM : 0 < M) :
    (subsample arr M).Sublist arr ∧
    ∀ a : α, arr.head? = some a → a ∈ subsample arr M := by
  refine ⟨subsample_sublist_aux arr M, fun a ha => ?_⟩
  apply List.mem_of_mem_head?
  rw [subsample_head arr M, ha]
  rfl

/-- Witness for C9 on a concrete three-element list with budget 2. -/
theorem subsample_subsequence_witness :
    (subsample [10, 20, 30] 2).Sublist [10, 20, 30] ∧ 10 ∈ subsample [10, 20, 30] 2 :=
  ⟨(subsample_subsequence [10, 20, 30] 2 (by decide)).1,
   (subsample_subsequence [10, 20, 30] 2 (by decide)).2 10 rfl⟩

/-- C2: the classifier accepts a record exactly when its orbit center equals
the Earth-centered tag and it has a finite apogee at most 2000 or a finite
period at most 127; a non-finite value never satisfies a threshold, so with
both fields absent the record is not LEO. -/
theorem isLeo_iff (oc : String) (a p : Option ℚ) :
    (isLeoOf oc a p = true ↔
      oc = "EA" ∧ ((∃ x, a = some x ∧ x ≤ 2000) ∨ ∃ x, p = some x ∧ x ≤ 127)) ∧
    (a = none → p = none → isLeoOf oc a p = false) := by
  constructor
  · rcases a with _ | x <;> rcases p with _ | y <;>
      simp [isLeoOf, finLe]
  · rintro rfl rfl
    simp [isLeoOf, finLe]

/-- C3: a record is in the active set exactly when its type is allowed, it
launched no later than the end of the target year, and it has not decayed by
that instant; the empty allowed set yields the empty result. -/
theorem activeAtYear_spec (leo : List CatalogRecord) (sel : List String) (year : ℤ) :
    (∀ r : CatalogRecord, r ∈ activeAtYear leo sel year ↔
      r ∈ leo ∧ r.objectType ∈ sel ∧ r.launchDate ≤ endOfYear year ∧
        (r.decayDate = none ∨ ∃ dd, r.decayDate = some dd ∧ endOfYear year < dd)) ∧
    activeAtYear leo [] year = [] := by
  refine ⟨fun r => mem_activeAtYear, ?_⟩
  rw [activeAtYear]
  simp [List.contains_nil]

/-- C5: with a fixed filter set, an undecayed record active at an earlier
year is still active at any later year. -/
theorem active_monotone (leo : List CatalogRecord) (sel : List String)
    (r : CatalogRecord) (y1 y2 : ℤ) (hdec : r.decayDate = none) (h12 : y1 < y2)
    (h1 : r ∈ activeAtYear leo sel y1) : r ∈ activeAtYear leo sel y2 := by
  rw [mem_activeAtYear] at h1 ⊢
  obtain ⟨hmem, hty, hla, -⟩ := h1
  exact ⟨hmem, hty, le_trans hla (endOfYear_mono h12.le), Or.inl hdec⟩

/-- A concrete undecayed payload record for the C5 witness. -/
def recPay : CatalogRecord :=
  { objectType := "PAY", launchDate := 0, decayDate := none, norad := 1,
    baseAngle := 0, baseRadius := 0, drift := 0 }

/-- Witness for C5: a payload active in 1970 is still active in 1971. -/
theorem active_monotone_witness :
    recPay ∈ activeAtYear [recPay] ["PAY"] 1971 :=
  active_monotone [recPay] ["PAY"] recPay 1970 1971 rfl (by decide) (by decide)

/-- C4: the layout is a pure function of the catalog id alone, so re-deriving
it is deterministic: any two accepted records with the same catalog id carry
bit-for-bit the same baseAngle, baseRadius and drift, whatever else the rows
or indices were. -/
theorem layout_deterministic (d1 d2 : RawRow) (i1 i2 : ℕ) (r1 r2 : CatalogRecord)
    (h1 : parseRow d1 i1 = some r1) (h2 : parseRow d2 i2 = some r2)
    (hid : r1.norad = r2.norad) :
    r1.baseAngle = r2.baseAngle ∧ r1.baseRadius = r2.baseRadius ∧ r1.drift = r2.drift := by
  obtain ⟨-, a1, b1, c1⟩ := parseRow_fields h1
  obtain ⟨-, a2, b2, c2⟩ := parseRow_fields h2
  rw [a1, b1, c1, a2, b2, c2, hid]
  exact ⟨rfl, rfl, rfl⟩

/-- A row with catalog id 25544, classified LEO through its apogee. -/
def rowSameId1 : RawRow :=
  { LAUNCH_DATE := some 0, DECAY_DATE := none, APOGEE := some 500, PERIOD := none,
    NORAD_CAT_ID := some 25544, OBJECT_TYPE := "PAY", ORBIT_CENTER := "EA" }

/-- A different row with the same catalog id 25544, classified through its
period, at a different row index. -/
def rowSameId2 : RawRow :=
  { LAUNCH_DATE := some 86400000, DECAY_DATE := some 999999999000,
    APOGEE := none, PERIOD := some 92, NORAD_CAT_ID := some 25544,
    OBJECT_TYPE := "DEB", ORBIT_CENTER := "EA" }

/-- Witness for C4: the two concrete rows above share id 25544 and get the
same layout despite differing in every other field and in row index. -/
theorem layout_deterministic_witness :
    ((parseRow rowSameId1 0).getD default).baseAngle
        = ((parseRow rowSameId2 7).getD default).baseAngle ∧
    ((parseRow rowSameId1 0).getD default).baseRadius
        = ((parseRow rowSameId2 7).getD default).baseRadius ∧
    ((parseRow rowSameId1 0).getD default).drift
        = ((parseRow rowSameId2 7).getD default).drift :=
  layout_deterministic rowSameId1 rowSameId2 0 7
    ((parseRow rowSameId1 0).getD default) ((parseRow rowSameId2 7).getD default)
    rfl rfl (by decide)

/-- C6: for every seed, the derived layout lies in the documented bands:
baseAngle in [pi, 2 pi), baseRadius in [R + 35, R + 225] for the reference
radius R, and drift of magnitude in [0.08, 0.28) with sign plus or minus
one. -/
theorem layout_ranges (seed : ℚ) :
    (mathPI ≤ (layoutOf seed).baseAngle ∧ (layoutOf seed).baseAngle < 2 * mathPI) ∧
    (earthRadius + 35 ≤ (layoutOf seed).baseRadius ∧
      (layoutOf seed).baseRadius ≤ earthRadius + 225) ∧
    ∃ m sg : ℚ, (layoutOf seed).drift = m * sg ∧
      8 / 100 ≤ m ∧ m < 28 / 100 ∧ (sg = 1 ∨ sg = -1) :=
  layout_ranges_core _ _ _ _
    (unit_range (mb32out_lt _)) (unit_range (mb32out_lt _)) (unit_range (mb32out_lt _))

/-- C7: a failed numeric coercion degrades the field to the NaN sentinel and
the row can still be accepted: with a valid launch date and Earth-centered
tag, a period within threshold keeps the row whatever APOGEE held, and an
apogee within threshold keeps the row whatever PERIOD held. -/
theorem numeric_failure_keeps_row (d : RawRow) (i : ℕ) (t : ℤ)
    (hl : d.LAUNCH_DATE = some t) (hc : d.ORBIT_CENTER = "EA") :
    (d.APOGEE = none → toNum d.APOGEE = none) ∧
    (d.PERIOD = none → toNum d.PERIOD = none) ∧
    ((∃ p, d.PERIOD = some p ∧ p ≤ 127) → (parseRow d i).isSome = true) ∧
    ((∃ a, d.APOGEE = some a ∧ a ≤ 2000) → (parseRow d i).isSome = true) := by
  refine ⟨fun h => by rw [h]; rfl, fun h => by rw [h]; rfl, ?_, ?_⟩
  · rintro ⟨p, hp, hple⟩
    have hleo : isLeoOf d.ORBIT_CENTER (toNum d.APOGEE) (toNum d.PERIOD) = true := by
      simp [isLeoOf, finLe, toNum, hc, hp, hple]
    unfold parseRow
    rw [hl]
    simp [hleo]
  · rintro ⟨a, ha, hale⟩
    have hleo : isLeoOf d.ORBIT_CENTER (toNum d.APOGEE) (toNum d.PERIOD) = true := by
      simp [isLeoOf, finLe, toNum, hc, ha, hale]
    unfold parseRow
    rw [hl]
    simp [hleo]

/-- A row whose APOGEE failed coercion but whose period is within
threshold. -/
def rowNoApogee : RawRow :=
  { LAUNCH_DATE := some 0, DECAY_DATE := none, APOGEE := none, PERIOD := some 92,
    NORAD_CAT_ID := some 3, OBJECT_TYPE := "R/B", ORBIT_CENTER := "EA" }

/-- Witness for C7 at the concrete row above. -/
theorem numeric_failure_keeps_row_witness :
    (rowNoApogee.APOGEE = none → toNum rowNoApogee.APOGEE = none) ∧
    (rowNoApogee.PERIOD = none → toNum rowNoApogee.PERIOD = none) ∧
    ((∃ p, rowNoApogee.PERIOD = some p ∧ p ≤ 127) →
      (parseRow rowNoApogee 0).isSome = true) ∧
    ((∃ a, rowNoApogee.APOGEE = some a ∧ a ≤ 2000) →
      (parseRow rowNoApogee 0).isSome = true) :=
  numeric_failure_keeps_row rowNoApogee 0 0 rfl rfl

/-- C8 (amended): the parser coerces NORAD_CAT_ID to a number and assigns
catalogId = i + 1 exactly when that number is falsy (failed coercion or 0);
a nonzero finite id is kept as is. Uniqueness across the working set is not
guaranteed. -/
theorem norad_fallback (d : RawRow) (i : ℕ) (r : CatalogRecord)
    (h : parseRow d i = some r) :
    r.norad = match d.NORAD_CAT_ID with
      | some q => if q = 0 then (i : ℚ) + 1 else q
      | none => (i : ℚ) + 1 :=
  (parseRow_fields h).1

/-- A row with a nonzero genuine catalog id, for the C8 witness. -/
def rowKeepId : RawRow :=
  { LAUNCH_DATE := some 0, DECAY_DATE := none, APOGEE := some 700, PERIOD := none,
    NORAD_CAT_ID := some 42, OBJECT_TYPE := "PAY", ORBIT_CENTER := "EA" }

/-- Witness for the amended C8: the concrete row keeps its genuine id 42. -/
theorem norad_fallback_witness :
    ((parseRow rowKeepId 3).getD default).norad = 42 :=
  (norad_fallback rowKeepId 3 ((parseRow rowKeepId 3).getD default) rfl).trans (by decide)

/-- A row without a usable catalog id, parsed at index 0 (fallback id 1). -/
def rowNoId : RawRow :=
  { LAUNCH_DATE := some 0, DECAY_DATE := none, APOGEE := some 500, PERIOD := none,
    NORAD_CAT_ID := none, OBJECT_TYPE := "PAY", ORBIT_CENTER := "EA" }

/-- A row with genuine catalog id 1, parsed at index 1. -/
def rowIdOne : RawRow :=
  { LAUNCH_DATE := some 0, DECAY_DATE := none, APOGEE := some 600, PERIOD := none,
    NORAD_CAT_ID := some 1, OBJECT_TYPE := "PAY", ORBIT_CENTER := "EA" }

/-- C8 counterexample: with the row at index 0 lacking a usable NORAD_CAT_ID
(fallback id 0 + 1 = 1) and the row at index 1 carrying the genuine id 1,
the working set holds two records with the same catalogId, refuting the
claimed uniqueness of the key. -/
theorem norad_not_unique :
    (leoData [rowNoId, rowIdOne]).map CatalogRecord.norad = [1, 1] ∧
    ¬ ((leoData [rowNoId, rowIdOne]).map CatalogRecord.norad).Nodup := by
  have hlist : leoData [rowNoId, rowIdOne]
      = [(parseRow rowNoId 0).getD default, (parseRow rowIdOne 1).getD default] := rfl
  obtain ⟨hn0, -, -, -⟩ :=
    parseRow_fields (d := rowNoId) (i := 0) (r := (parseRow rowNoId 0).getD default) rfl
  obtain ⟨hn1, -, -, -⟩ :=
    parseRow_fields (d := rowIdOne) (i := 1) (r := (parseRow rowIdOne 1).getD default) rfl
  have e0 : ((parseRow rowNoId 0).getD default).norad = 1 := by
    rw [hn0]; norm_num [rowNoId]
  have e1 : ((parseRow rowIdOne 1).getD default).norad = 1 := by
    rw [hn1]; norm_num [rowIdOne]
  rw [hlist, List.map_cons, List.map_cons, List.map_nil, e0, e1]
  exact ⟨rfl, by decide⟩

/-- C10: the working set is sorted ascending by launch date at load, the
active-set filter preserves that order, and so does the stride subsample fed
to rendering. -/
theorem pipeline_sorted (rows : List RawRow) (sel : List String) (year : ℤ) (M : ℕ) :
    List.Sorted dateLe (leoData rows) ∧
    List.Sorted dateLe (activeAtYear (leoData rows) sel year) ∧
    List.Sorted dateLe (subsample (activeAtYear (leoData rows) sel year) M) := by
  have h1 : List.Sorted dateLe (leoData rows) :=
    List.sorted_insertionSort dateLe _
  have h2 : List.Sorted dateLe (activeAtYear (leoData rows) sel year) :=
    List.Pairwise.sublist (List.filter_sublist _) h1
  have h3 : List.Sorted dateLe (subsample (activeAtYear (leoData rows) sel year) M) :=
    List.Pairwise.sublist (subsample_sublist_aux _ _) h2
  exact ⟨h1, h2, h3⟩

end SatCat
